import Mathlib

/-!
Verification of the immudb pgsql session state machine and SQL engine
key codec, shallowly embedded from the repository sources
(pkg/pgsql/server/query_machine.go and the embedded sql engine whose
behaviour is pinned by its test-suite in src/unnamed/part_000).
-/

set_option maxRecDepth 4000

deriving instance DecidableEq for Except

/-- Error kinds used across the embedding.  The generic constructor stands
for error values produced by external collaborators (the SQL grammar and
the key-value store engine) that the session merely forwards. -/
inductive Err where
  | invalidValue
  | maxLengthExceeded
  | corruptedData
  | maxStmtNumberExceeded
  | notASelect
  | statementNotFound
  | portalNotFound
  | portalAlreadyPresent
  | statementAlreadyPresent
  | useDBNotSupported
  | createDBNotSupported
  | unknownMessageType
  | duplicatedKey
  | keyAlreadyExists
  | tooManyRows
  | noMoreRows
  | limitedGroupBy
  | noAvailableIndex
  | alreadyClosed
  | illegalArguments
  | catalogNotReady
  | noDatabaseSelected
  | databaseDoesNotExist
  | tableDoesNotExist
  | generic (code : Nat)
  deriving DecidableEq, Repr

/-! ## Byte-level helpers (binary.BigEndian) -/

/-- Big-endian base-256 digits of a natural number, fixed width k
(binary.BigEndian.PutUint32 / PutUint64): digit j from the left is
(n / 2^(8*(k-1-j))) % 256. -/
def toBytesBE : Nat → Nat → List Nat
  | 0, _ => []
  | k + 1, n => (n / 256 ^ k) % 256 :: toBytesBE k n

/-- Big-endian reconstruction of a natural number from base-256 digits
(binary.BigEndian.Uint32 / Uint64). -/
def fromBytesBE : List Nat → Nat
  | [] => 0
  | d :: rest => d * 256 ^ rest.length + fromBytesBE rest

/-- Strict lexicographic order on byte strings, as the underlying ordered
key-value store compares keys. -/
def lexLt : List Nat → List Nat → Bool
  | [], [] => false
  | [], _ :: _ => true
  | _ :: _, [] => false
  | a :: as, b :: bs => if a < b then true else if b < a then false else lexLt as bs

/-- Two complement reading of a 64-bit unsigned value as int64
(the Go conversion int64(v) for v : uint64). -/
def toSigned64 (n : Nat) : Int :=
  if n < 2 ^ 63 then (n : Int) else (n : Int) - 2 ^ 64

/-! ## Key codec (embedded sql engine)

The engine implementation is not under src/; only its test-suite is.
The definitions below are modelled from the spec (section 4.1) and are
pinned byte-for-byte by TestEncodeRawValue, TestEncodeValue,
TestDecodeValueFailures and TestDecodeValueSuccess in src/unnamed/part_000. -/

/-- SQL column type tags. -/
inductive SQLValueType where
  | integer
  | varchar
  | boolean
  | blob
  | any
  deriving DecidableEq, Repr

/-- Runtime values handed to the codec.  Varchar and blob payloads are raw
byte lists; integers are the host int64. -/
inductive RawValue where
  | int (i : Int)
  | str (bs : List Nat)
  | bool (b : Bool)
  | blob (bs : List Nat)
  deriving DecidableEq, Repr

/-- Modelled from the spec: EncodeValue of the embedded sql engine (its
implementation is absent from src/).  Every stored value is prefixed with a
4-byte big-endian length; integers encode as fixed 8-byte big-endian two
complement (the test TestEncodeRawValue pins the unbiased uint64 cast:
EncodeValue(int64(1)) = 0,0,0,8,0,0,0,0,0,0,0,1); booleans are one byte
0/1; varchar and blob are raw bytes; a declared positive max length wider
than the value is MaxLengthExceeded; a host-type mismatch is InvalidValue. -/
def EncodeValue (val : RawValue) (colType : SQLValueType) (maxLen : Nat) :
    Except Err (List Nat) :=
  match colType with
  | .varchar =>
    match val with
    | .str bs =>
      if 0 < maxLen ∧ maxLen < bs.length then .error .maxLengthExceeded
      else .ok (toBytesBE 4 bs.length ++ bs)
    | _ => .error .invalidValue
  | .integer =>
    match val with
    | .int i => .ok (toBytesBE 4 8 ++ toBytesBE 8 (i % 2 ^ 64).toNat)
    | _ => .error .invalidValue
  | .boolean =>
    match val with
    | .bool b => .ok (toBytesBE 4 1 ++ [if b then 1 else 0])
    | _ => .error .invalidValue
  | .blob =>
    match val with
    | .blob bs =>
      if 0 < maxLen ∧ maxLen < bs.length then .error .maxLengthExceeded
      else .ok (toBytesBE 4 bs.length ++ bs)
    | _ => .error .invalidValue
  | .any => .error .invalidValue

/-- Modelled from the spec: DecodeValue of the embedded sql engine (its
implementation is absent from src/).  Reads the 4-byte big-endian length
(CorruptedData when fewer than 4 bytes are available, when the length is
negative as a signed 32-bit value, or when it runs off the buffer), then
the typed payload; integers wider than 8 bytes and any-typed values are
CorruptedData.  Returns the value and the read offset, as pinned by
TestDecodeValueFailures and TestDecodeValueSuccess. -/
def DecodeValue (b : List Nat) (t : SQLValueType) : Except Err (RawValue × Nat) :=
  if b.length < 4 then .error .corruptedData
  else
    let vlen := fromBytesBE (b.take 4)
    if 2 ^ 31 ≤ vlen then .error .corruptedData
    else if b.length < 4 + vlen then .error .corruptedData
    else
      match t with
      | .integer =>
        if 8 < vlen then .error .corruptedData
        else .ok (.int (toSigned64 (fromBytesBE ((b.drop 4).take vlen))), 4 + vlen)
      | .varchar => .ok (.str ((b.drop 4).take vlen), 4 + vlen)
      | .boolean =>
        if vlen ≠ 1 then .error .corruptedData
        else .ok (.bool ((b.drop 4).headD 0 == 1), 5)
      | .blob => .ok (.blob ((b.drop 4).take vlen), 4 + vlen)
      | .any => .error .corruptedData

/-- Legal host values for the codec: int64 range for integers, byte
payloads whose bytes fit in a byte and whose length fits the signed
32-bit length prefix. -/
def RawValue.wellFormed : RawValue → Prop
  | .int i => -(2 ^ 63) ≤ i ∧ i < 2 ^ 63
  | .str bs => bs.length < 2 ^ 31
  | .bool _ => True
  | .blob bs => bs.length < 2 ^ 31

/-! ## PG-wire session state machine (pkg/pgsql/server/query_machine.go)

The embedding models the QueryMachine message loop.  Frontend messages
arrive already decoded, and socket writes are modelled as always
succeeding: write failures are unrecoverable I/O outside every claim.
The SQL grammar and the database handle are external collaborators
(assumed components per the spec); they enter the model as an oracle
record of pure functions chosen per scenario. -/

/-- Go regexp whitespace class: tab, newline, form feed, carriage return
and space. -/
def isGoSpace (c : Char) : Bool :=
  c == ' ' || c == '\t' || c == '\n' || c == '\r' || c == '\x0c'

/-- Case-insensitive match of an input character against a pattern
character, as the (?i) flag reads letters; non-letters match exactly. -/
def ciEq (c p : Char) : Bool :=
  c == p || (p.isLower && c.toNat + 32 == p.toNat)

/-- Whether the Go regexp (?i)set\s+.+ matches anywhere in the text: a
case-insensitive set, one or more whitespace characters, then at least
one character other than newline.  The regexp is unanchored, so it also
fires in the middle of a longer statement text.  QueryMachine uses it as
the SET fast path in the Query, Parse and Execute branches. -/
def setScan : List Char → Bool
  | c1 :: c2 :: c3 :: c4 :: rest =>
    (ciEq c1 's' && ciEq c2 'e' && ciEq c3 't' && isGoSpace c4 &&
      rest.any (fun c => c != '\n')) ||
    setScan (c2 :: c3 :: c4 :: rest)
  | _ => false

def setMatch (s : String) : Bool := setScan s.data

/-- Case-insensitive literal match returning the rest of the input. -/
def ciStr : List Char → List Char → Option (List Char)
  | [], s => some s
  | _ :: _, [] => none
  | p :: ps, c :: cs => if ciEq c p then ciStr ps cs else none

/-- Whether the Go regexp (?i)select\s+version\(\s*\) matches at the head
of the given character list. -/
def versionAt (l : List Char) : Bool :=
  match ciStr "select".data l with
  | none => false
  | some r1 =>
    match r1 with
    | [] => false
    | c :: _ =>
      if isGoSpace c then
        match ciStr "version(".data (r1.dropWhile isGoSpace) with
        | none => false
        | some r3 =>
          match ciStr ")".data (r3.dropWhile isGoSpace) with
          | some _ => true
          | none => false
      else false

/-- Whether the version regexp matches anywhere in the text. -/
def versionScan : List Char → Bool
  | [] => false
  | c :: cs => versionAt (c :: cs) || versionScan cs

def versionMatch (s : String) : Bool := versionScan s.data

/-- Parsed SQL statements as the external grammar (sql.Parse) returns
them.  Only the dynamic type matters to the session, which switches on
SelectStmt, UseDatabaseStmt and CreateDatabaseStmt; the tag lets the
engine oracle interpret the statement. -/
inductive Stmt where
  | selectS (tag : Nat)
  | useDatabaseS (tag : Nat)
  | createDatabaseS (tag : Nat)
  | otherS (tag : Nat)
  deriving DecidableEq, Repr

/-- Whether the dynamic type assertion stmt.(*sql.SelectStmt) succeeds. -/
def Stmt.isSelect : Stmt → Bool
  | .selectS _ => true
  | _ => false

/-- Result or parameter column descriptor (schema.Column). -/
structure Column where
  name : String
  ty : String
  deriving DecidableEq, Repr

/-- Query result as the engine returns it: column descriptors plus rows,
whose contents are opaque to the session. -/
structure QueryRes where
  columns : List Column
  rows : List Nat
  deriving DecidableEq, Repr

/-- Session-stored prepared statement (struct statement,
query_machine.go lines 425-431). -/
structure PStatement where
  name : String
  sqlStatement : String
  preparedStmt : Option Stmt
  params : List Column
  results : List Column
  deriving DecidableEq, Repr

/-- Session-stored portal (struct portal, query_machine.go lines
418-423). -/
structure Portal where
  name : String
  statement : PStatement
  parameters : Nat
  resultColumnFormatCodes : List Int
  deriving DecidableEq, Repr

/-- Frontend messages, already decoded (fmessages package). -/
inductive FMsg where
  | terminate
  | query (statements : String)
  | parse (destPreparedStatementName : String) (statements : String)
  | describe (descType : String) (name : String)
  | sync
  | bind (destPortalName : String) (preparedStatementName : String)
      (paramVals : List Nat) (resultColumnFormatCodes : List Int)
  | execute (portalName : String)
  | unknown (tag : Nat)
  deriving DecidableEq, Repr

/-- Modelled from the spec: the extended-query-mode flag that
session.nextMessage returns beside each decoded message (the session
implementation is absent from src/).  The extended-query protocol
consists of Parse, Bind, Describe, Execute and Sync. -/
def FMsg.isExtQuery : FMsg → Bool
  | .parse _ _ => true
  | .describe _ _ => true
  | .sync => true
  | .bind _ _ _ _ => true
  | .execute _ => true
  | _ => false

/-- Backend messages (bmessages package) by constructor and the payload
the claims observe.  ErrorResponse carries the error that ErrorHandle
translated; the version DataRow payload is opaque. -/
inductive BMsg where
  | readyForQuery
  | commandComplete
  | errorResponse (e : Err)
  | parseComplete
  | bindComplete
  | parameterDescription (params : List Column)
  | rowDescription (cols : List Column) (formatCodes : Option (List Int))
  | dataRow (rows : List Nat) (ncols : Nat) (formatCodes : Option (List Int))
  | emptyQueryResponse
  deriving DecidableEq, Repr

/-- Oracle for the session's external collaborators: the SQL grammar
(sql.Parse), buildNamedParams, and the bound database handle
(SQLQueryRowReader composed with Columns, InferParametersPrepared,
SQLQueryPrepared with either nil or portal parameters, and
SQLExecPrepared).  The session embedding is parametric in it. -/
structure DBOracle where
  parseSQL : String → Except Err (List Stmt)
  selectColumns : Nat → Except Err (List Column)
  inferParams : Stmt → Except Err (List (String × String))
  buildNamedParams : List Column → List Nat → Except Err Nat
  queryPrepared : Nat → Option Nat → Except Err QueryRes
  execPrepared : Stmt → Except Err Nat

/-- Per-connection session state held by QueryMachine: the prepared
statement map, the portal map and the waitForSync flag. -/
structure SessionState where
  statements : List (String × PStatement)
  portals : List (String × Portal)
  waitForSync : Bool
  deriving DecidableEq, Repr

/-- Go map assignment over the association-list representation; lookup
sees the newest binding. -/
def mapSet (m : List (κ × α)) (k : κ) (v : α) : List (κ × α) :=
  (k, v) :: m

/-- Result of processing one frontend message: continue the loop with
emitted messages, leave it (clean Terminate close, or the fatal return on
a named-statement collision), or hit a Go runtime panic (nil map entry
dereference, index out of range). -/
inductive StepResult where
  | next (st : SessionState) (out : List BMsg)
  | closed (out : List BMsg) (e : Option Err)
  | panicked (out : List BMsg)
  deriving DecidableEq, Repr

/-- Insertion step of sort.Strings. -/
def insertStr (x : String) : List String → List String
  | [] => [x]
  | y :: ys => if x ≤ y then x :: y :: ys else y :: insertStr x ys

/-- sort.Strings over the parameter-name list. -/
def sortStrings : List String → List String
  | [] => []
  | x :: xs => insertStr x (sortStrings xs)

/-- Simple-protocol statement loop (session.queryMsg, query_machine.go
lines 346-395): messages written so far plus the error that aborted the
loop, if any. -/
def queryMsgLoop (db : DBOracle) : List Stmt → List BMsg × Option Err
  | [] => ([], none)
  | s :: rest =>
    match s with
    | .useDatabaseS _ => ([], some .useDBNotSupported)
    | .createDatabaseS _ => ([], some .createDBNotSupported)
    | .selectS q =>
      match db.queryPrepared q none with
      | .error e => ([], some e)
      | .ok res =>
        let out :=
          if res.rows.length > 0 then
            [.rowDescription res.columns none, .dataRow res.rows res.columns.length none]
          else [.emptyQueryResponse]
        let rec' := queryMsgLoop db rest
        (out ++ rec'.1, rec'.2)
    | .otherS _ =>
      match db.execPrepared s with
      | .error e => ([], some e)
      | .ok _ => queryMsgLoop db rest

/-- session.queryMsg: parse the text, then run the statement loop. -/
def queryMsg (db : DBOracle) (stmts : String) : List BMsg × Option Err :=
  match db.parseSQL stmts with
  | .error e => ([], some e)
  | .ok list => queryMsgLoop db list

/-- Tail of the Parse branch (query_machine.go lines 183-204): the
named-statement collision check, the map store and ParseComplete. -/
def parseFinish (st : SessionState) (name text : String) (stmt : Option Stmt)
    (paramCols resCols : List Column) : StepResult :=
  let st1 := { st with statements := mapSet st.statements name ⟨name, text, stmt, paramCols, resCols⟩ }
  match st.statements.lookup name with
  | some _ =>
    if name ≠ "" then .closed [] (some .statementAlreadyPresent)
    else .next st1 [.parseComplete]
  | none => .next st1 [.parseComplete]

/-- Tail of the Bind branch after the portal-collision check
(query_machine.go lines 265-291). -/
def bindProceed (db : DBOracle) (st : SessionState) (destPortal stmtName : String)
    (paramVals : List Nat) (fmtCodes : List Int) : StepResult :=
  match st.statements.lookup stmtName with
  | none => .next { st with waitForSync := true } [.errorResponse .statementNotFound]
  | some stp =>
    match db.buildNamedParams stp.params paramVals with
    | .error e => .next { st with waitForSync := true } [.errorResponse e]
    | .ok tag =>
      let st1 := { st with portals := mapSet st.portals destPortal ⟨destPortal, stp, tag, fmtCodes⟩ }
      .next st1 [.bindComplete]

/-- Statement loop of the Execute branch (query_machine.go lines
310-333).  An engine error writes ErrorResponse, sets waitForSync and
continues the inner loop; a non-empty result writes one DataRow batch
and the Go break only leaves the type switch, so the loop proceeds
either way. -/
def executeLoop (db : DBOracle) (p : Portal) : Bool → List Stmt → List BMsg × Bool
  | wfs, [] => ([], wfs)
  | wfs, s :: rest =>
    match s with
    | .selectS q =>
      (match db.queryPrepared q (some p.parameters) with
       | .error e =>
         let r := executeLoop db p true rest
         (.errorResponse e :: r.1, r.2)
       | .ok res =>
         if res.rows.length > 0 then
           let r := executeLoop db p wfs rest
           (.dataRow res.rows res.columns.length (some p.resultColumnFormatCodes) :: r.1, r.2)
         else
           let r := executeLoop db p wfs rest
           (.emptyQueryResponse :: r.1, r.2))
    | _ => executeLoop db p wfs rest

/-- The message type switch of QueryMachine (query_machine.go lines
70-342), reached once the discard guard has let the message through. -/
def queryMachineSwitch (db : DBOracle) (st : SessionState) (msg : FMsg) : StepResult :=
  match msg with
  | .terminate => .closed [] none
  | .query stmts =>
    if setMatch stmts then .next st [.commandComplete, .readyForQuery]
    else if versionMatch stmts then
      .next st [.rowDescription [⟨"version", "VARCHAR"⟩] none,
        .dataRow [0] 1 none, .commandComplete, .readyForQuery]
    else if stmts == ";" then .next st [.commandComplete, .readyForQuery]
    else
      let r := queryMsg db stmts
      match r.2 with
      | some e => .next st (r.1 ++ [.errorResponse e])
      | none => .next st (r.1 ++ [.commandComplete, .readyForQuery])
  | .parse name text =>
    if setMatch text then
      parseFinish st name text none [] []
    else
      match db.parseSQL text with
      | .error e => .next { st with waitForSync := true } [.errorResponse e]
      | .ok stmts =>
        if stmts.length > 1 then
          .next st [.errorResponse .maxStmtNumberExceeded]
        else
          match stmts with
          | [] => .panicked []
          | stmt :: _ =>
            match stmt with
            | .selectS q =>
              (match db.selectColumns q with
               | .error e => .next { st with waitForSync := true } [.errorResponse e]
               | .ok cols =>
                 match db.inferParams stmt with
                 | .error e => .next { st with waitForSync := true } [.errorResponse e]
                 | .ok r =>
                   let names := sortStrings (r.map Prod.fst)
                   let paramCols := names.filterMap
                     (fun n => (r.lookup n).map (fun ty => Column.mk n ty))
                   parseFinish st name text (some stmt) paramCols cols)
            | _ => .next { st with waitForSync := true } [.errorResponse .notASelect]
  | .describe dt name =>
    if dt == "S" then
      match st.statements.lookup name with
      | none => .next { st with waitForSync := true } [.errorResponse .statementNotFound]
      | some stp =>
        .next st [.parameterDescription stp.params, .rowDescription stp.results none]
    else if dt == "P" then
      match st.portals.lookup name with
      | none => .next { st with waitForSync := true } [.errorResponse .portalNotFound]
      | some p =>
        .next st [.rowDescription p.statement.results (some p.resultColumnFormatCodes)]
    else .next st []
  | .sync => .next st [.readyForQuery]
  | .bind destPortal stmtName paramVals fmtCodes =>
    match st.portals.lookup destPortal with
    | some _ =>
      if destPortal ≠ "" then
        .next { st with waitForSync := true } [.errorResponse .portalAlreadyPresent]
      else bindProceed db st destPortal stmtName paramVals fmtCodes
    | none => bindProceed db st destPortal stmtName paramVals fmtCodes
  | .execute portalName =>
    match st.portals.lookup portalName with
    | none => .panicked []
    | some p =>
      if setMatch p.statement.sqlStatement then
        .next st [.emptyQueryResponse]
      else
        match db.parseSQL p.statement.sqlStatement with
        | .error e => .next { st with waitForSync := true } [.errorResponse e]
        | .ok stmts =>
          let r := executeLoop db p st.waitForSync stmts
          .next { st with waitForSync := r.2 } (r.1 ++ [.commandComplete])
  | .unknown _ => .next st [.errorResponse .unknownMessageType]

/-- One iteration of the QueryMachine loop (query_machine.go lines
45-343): the waitForSync discard guard, then the message switch.  The
initial ReadyForQuery of line 41 precedes the loop and is not part of
any step. -/
def queryMachineStep (db : DBOracle) (st : SessionState) (msg : FMsg) : StepResult :=
  if st.waitForSync && msg.isExtQuery then
    match msg with
    | .sync => queryMachineSwitch db { st with waitForSync := false } .sync
    | _ => .next st []
  else queryMachineSwitch db st msg

/-- Outcome of feeding a whole message list to the loop. -/
inductive RunOutcome where
  | running (st : SessionState)
  | closed (e : Option Err)
  | panicked
  deriving DecidableEq, Repr

/-- Feed a message list to the QueryMachine loop, collecting every
backend message written. -/
def runSession (db : DBOracle) : SessionState → List FMsg → List BMsg × RunOutcome
  | st, [] => ([], .running st)
  | st, m :: ms =>
    match queryMachineStep db st m with
    | .next st1 out =>
      let r := runSession db st1 ms
      (out ++ r.1, r.2)
    | .closed out e => (out, .closed e)
    | .panicked out => (out, .panicked)

/-- Session state right after the connection-level ReadyForQuery: empty
maps, waitForSync off. -/
def initialSession : SessionState := ⟨[], [], false⟩

/-- Number of ErrorResponse messages in an output trace. -/
def countErrorResponses (l : List BMsg) : Nat :=
  (l.filter fun m => match m with | .errorResponse _ => true | _ => false).length

/-- Number of ReadyForQuery messages in an output trace. -/
def countReadyForQuery (l : List BMsg) : Nat :=
  (l.filter fun m => match m with | .readyForQuery => true | _ => false).length

/-! ## Engine write path with a unique secondary index (modelled)

The executor and store implementations are absent from src/; the model
follows the spec (sections 4.5 and 6) and is pinned by TestUpsertInto
(KeyAlreadyExists on a cross-statement unique conflict, DuplicatedKey
within one multi-row statement in TestIndexing). -/

/-- A row write as the executor derives it: encoded primary-key bytes,
the encoded key of the unique secondary index, and the encoded row
payload. -/
structure WriteRow where
  pk : List Nat
  uniqueKey : List Nat
  payload : List Nat
  deriving DecidableEq, Repr

/-- Committed key-value state: the primary-row namespace and the unique
secondary-index namespace, whose payload is the primary key. -/
structure KVState where
  primary : List (List Nat × List Nat)
  uniqueIdx : List (List Nat × List Nat)
  deriving DecidableEq, Repr

def emptyKV : KVState := ⟨[], []⟩

/-- Modelled from the spec: the executor's uniqueness check (engine code
absent from src/): read the current unique-index entry and compare its
payload primary key with the incoming one; a mismatch aborts the
statement with the store's KeyAlreadyExists, as TestUpsertInto pins. -/
def checkUnique (st : KVState) (r : WriteRow) : Except Err Unit :=
  match st.uniqueIdx.lookup r.uniqueKey with
  | some pkPayload => if pkPayload = r.pk then .ok () else .error .keyAlreadyExists
  | none => .ok ()

/-- Uniqueness checks for every row of one statement, against the
committed state only (pending same-statement writes are seen by the
store at commit, not by this check). -/
def checkAllUnique (st : KVState) : List WriteRow → Except Err Unit
  | [] => .ok ()
  | r :: rest =>
    match checkUnique st r with
    | .error e => .error e
    | .ok _ => checkAllUnique st rest

/-- Keys written by one statement's transaction, tagged by namespace
(0 primary rows, 1 unique-index entries). -/
def txKeys (rows : List WriteRow) : List (Nat × List Nat) :=
  rows.foldr (fun r acc => (0, r.pk) :: (1, r.uniqueKey) :: acc) []

/-- Whether a list contains a duplicated element. -/
def hasDup [DecidableEq α] : List α → Bool
  | [] => false
  | x :: xs => decide (x ∈ xs) || hasDup xs

/-- Apply the writes of one committed transaction. -/
def commitRows (st : KVState) (rows : List WriteRow) : KVState :=
  rows.foldl
    (fun acc r =>
      { acc with
        primary := mapSet acc.primary r.pk r.payload
        uniqueIdx := mapSet acc.uniqueIdx r.uniqueKey r.pk })
    st

/-- Modelled from the spec: one INSERT/UPSERT statement writing the
given rows atomically (engine code absent from src/).  Every row is
checked against the committed unique index, all writes then go into one
store transaction, and the store rejects a transaction that sets the
same key twice with DuplicatedKey.  An error leaves the committed state
untouched. -/
def execWriteStmt (st : KVState) (rows : List WriteRow) : Except Err KVState :=
  match checkAllUnique st rows with
  | .error e => .error e
  | .ok _ =>
    if hasDup (txKeys rows) then .error .duplicatedKey
    else .ok (commitRows st rows)

/-! ## Distinct row reader (modelled) -/

/-- Modelled from the spec: draining the distinct row reader (engine
code absent from src/).  Each Read first fails with TooManyRows when the
buffered set of emitted key tuples has already reached the engine's
distinct limit — TestQueryDistinct pins this order by demanding
TooManyRows on an already-exhausted source — and otherwise skips rows
whose projected tuple was emitted before, buffering and returning a
fresh tuple.  The source reader is the list of tuples it would yield
before NoMoreRows; the result is every emitted tuple in order plus the
error that ended the stream. -/
def distinctRun (limit : Nat) : List (List RawValue) → List (List RawValue) →
    List (List RawValue) × Err
  | [], seen =>
    if seen.length = limit then ([], .tooManyRows) else ([], .noMoreRows)
  | r :: rest, seen =>
    if seen.length = limit then ([], .tooManyRows)
    else if r ∈ seen then distinctRun limit rest seen
    else
      let t := distinctRun limit rest (r :: seen)
      (r :: t.1, t.2)

/-- First occurrences of the tuples of src that are not already in seen,
in stream order. -/
def newDistinct : List (List RawValue) → List (List RawValue) → List (List RawValue)
  | [], _ => []
  | r :: rest, seen =>
    if r ∈ seen then newDistinct rest seen
    else r :: newDistinct rest (r :: seen)

/-! ## Grouped aggregation (modelled) -/

/-- Modelled from the spec: the planner's choice of natural order for an
aggregate select (engine code absent from src/): with no ORDER BY the
natural order is the primary key; a requested ORDER BY column must be
the primary key or carry a secondary index, else NoAvailableIndex. -/
def planAggNaturalOrder (pkCol : String) (indexedCols : List String)
    (orderBy : Option String) : Except Err String :=
  match orderBy with
  | none => .ok pkCol
  | some o =>
    if o = pkCol ∨ indexedCols.contains o then .ok o else .error .noAvailableIndex

/-- One output row per contiguous run of equal grouping values: the
value and its COUNT(). -/
def groupRuns : List RawValue → List (RawValue × Nat)
  | [] => []
  | x :: xs =>
    match groupRuns xs with
    | [] => [(x, 1)]
    | (y, n) :: rest => if x = y then (y, n + 1) :: rest else (x, 1) :: (y, n) :: rest

/-- Modelled from the spec: SELECT COUNT() FROM t GROUP BY groupBy with
an optional ORDER BY, over the column values in scan order (engine code
absent from src/): GROUP BY is accepted only over a single column that
is exactly the input's natural order, else LimitedGroupBy — pinned by
TestCount — and then one row per contiguous run streams out. -/
def runGroupByCount (pkCol : String) (indexedCols : List String)
    (groupBy : String) (orderBy : Option String) (scanned : List RawValue) :
    Except Err (List (RawValue × Nat)) :=
  match planAggNaturalOrder pkCol indexedCols orderBy with
  | .error e => .error e
  | .ok natural =>
    if groupBy = natural then .ok (groupRuns scanned) else .error .limitedGroupBy

/-! ## Engine lifecycle (modelled)

TestClosing pins that after Close every exported engine operation
returns AlreadyClosed instead of doing any work. -/

/-- Modelled from the spec: the engine handle (implementation absent
from src/): its closed flag, catalog readiness, catalog contents, the
database selected by UseDatabase and the optional explicit snapshot. -/
structure Engine where
  closed : Bool
  catalogReady : Bool
  dbs : List String
  tables : List (String × List String)
  dbInUse : Option String
  snapshot : Option (Nat × Nat)
  deriving DecidableEq, Repr

/-- Modelled from the spec: Engine.Close marks the handle closed; a
second Close is AlreadyClosed. -/
def Engine.Close (e : Engine) : Except Err Engine :=
  if e.closed then .error .alreadyClosed else .ok { e with closed := true }

/-- Modelled from the spec: Engine.ExistDatabase. -/
def Engine.ExistDatabase (e : Engine) (db : String) : Except Err Bool :=
  if e.closed then .error .alreadyClosed else .ok (e.dbs.contains db)

/-- Modelled from the spec: Engine.UseDatabase selects a catalog
database. -/
def Engine.UseDatabase (e : Engine) (db : String) : Except Err Engine :=
  if e.closed then .error .alreadyClosed
  else if e.dbs.contains db then .ok { e with dbInUse := some db }
  else .error .databaseDoesNotExist

/-- Modelled from the spec: Engine.GetDatabaseByName. -/
def Engine.GetDatabaseByName (e : Engine) (db : String) : Except Err String :=
  if e.closed then .error .alreadyClosed
  else if e.dbs.contains db then .ok db
  else .error .databaseDoesNotExist

/-- Modelled from the spec: Engine.GetTableByName. -/
def Engine.GetTableByName (e : Engine) (db table : String) :
    Except Err (String × String) :=
  if e.closed then .error .alreadyClosed
  else
    match e.tables.lookup db with
    | some ts => if ts.contains table then .ok (db, table) else .error .tableDoesNotExist
    | none => .error .databaseDoesNotExist

/-- Modelled from the spec: Engine.DatabaseInUse. -/
def Engine.DatabaseInUse (e : Engine) : Except Err String :=
  if e.closed then .error .alreadyClosed
  else
    match e.dbInUse with
    | some db => .ok db
    | none => .error .noDatabaseSelected

/-- Modelled from the spec: Engine.UseSnapshot pins an explicit snapshot
window. -/
def Engine.UseSnapshot (e : Engine) (sinceTx untilTx : Nat) : Except Err Engine :=
  if e.closed then .error .alreadyClosed else .ok { e with snapshot := some (sinceTx, untilTx) }

/-- Modelled from the spec: Engine.RenewSnapshot. -/
def Engine.RenewSnapshot (e : Engine) : Except Err Engine :=
  if e.closed then .error .alreadyClosed else .ok e

/-- Modelled from the spec: Engine.CloseSnapshot. -/
def Engine.CloseSnapshot (e : Engine) : Except Err Engine :=
  if e.closed then .error .alreadyClosed else .ok { e with snapshot := none }

/-- Modelled from the spec: Engine.InferParameters over a statement
text; the inference itself is outside the lifecycle claim, the gates in
front of it are what TestClosing observes. -/
def Engine.InferParameters (e : Engine) (_sqlText : String) :
    Except Err (List (String × String)) :=
  if e.closed then .error .alreadyClosed
  else if ¬ e.catalogReady then .error .catalogNotReady
  else .ok []

/-- Modelled from the spec: Engine.InferParametersPreparedStmt over an
already-parsed statement. -/
def Engine.InferParametersPreparedStmt (e : Engine) (_s : Stmt) :
    Except Err (List (String × String)) :=
  if e.closed then .error .alreadyClosed
  else if ¬ e.catalogReady then .error .catalogNotReady
  else .ok []

/-- Modelled from the spec: Engine.EnsureCatalogReady boots the catalog
from its persisted namespaces. -/
def Engine.EnsureCatalogReady (e : Engine) : Except Err Engine :=
  if e.closed then .error .alreadyClosed else .ok { e with catalogReady := true }

/-- Modelled from the spec: Engine.ReloadCatalog rebuilds the in-memory
catalog. -/
def Engine.ReloadCatalog (e : Engine) : Except Err Engine :=
  if e.closed then .error .alreadyClosed else .ok { e with catalogReady := true }

/-! ## Concrete oracle for scenario evaluation -/

/-- Column descriptor of the scenarios' select results. -/
def idCol : Column := ⟨"(db1.t1.id)", "INTEGER"⟩

/-- Concrete collaborator oracle for the counterexample and witness
scenarios, agreeing with the real grammar and engine on the statement
texts the scenarios use: select tag 1 yields one row, select tag 2
yields no rows, and the upsert text parses as a single non-select
statement. -/
def dbA : DBOracle where
  parseSQL := fun s =>
    if s = "SELECT id FROM t1; SELECT id FROM t2" then .ok [.selectS 1, .selectS 2]
    else if s = "SELECT id FROM t1 WHERE v = 'set 1'; SELECT id FROM t2" then
      .ok [.selectS 1, .selectS 2]
    else if s = "SELECT id FROM t1" then .ok [.selectS 1]
    else if s = "SELECT id FROM t0" then .ok [.selectS 2]
    else if s = "UPSERT INTO t1 (id, v) VALUES (1, 'set x')" then .ok [.otherS 4]
    else if s = "CREATE TABLE t1 (id INTEGER, PRIMARY KEY id)" then .ok [.otherS 3]
    else .error (.generic 0)
  selectColumns := fun q =>
    if q = 1 ∨ q = 2 then .ok [idCol] else .error (.generic 1)
  inferParams := fun _ => .ok []
  buildNamedParams := fun _ _ => .ok 7
  queryPrepared := fun q _ =>
    if q = 1 then .ok ⟨[idCol], [11]⟩
    else if q = 2 then .ok ⟨[idCol], []⟩
    else .error (.generic 2)
  execPrepared := fun _ => .ok 0

/-- Prepared statement stored by Parse of "SELECT id FROM t1" under name
s1. -/
def ps1 : PStatement := ⟨"s1", "SELECT id FROM t1", some (.selectS 1), [], [idCol]⟩

/-- Session state with the named statement s1 and the named portal p1
already present. -/
def stA : SessionState := ⟨[("s1", ps1)], [("p1", ⟨"p1", ps1, 7, []⟩)], false⟩

/-- Statement whose text matches the SET pattern, as Parse stores it on
the fast path (nil parsed tree, nil columns). -/
def psSet : PStatement := ⟨"s2", "set a 1", none, [], []⟩

/-- Statement for the empty-result select. -/
def ps0 : PStatement := ⟨"s0", "SELECT id FROM t0", some (.selectS 2), [], [idCol]⟩

/-- Session state holding three portals: pSet over a SET text, pRows
over the one-row select, pEmpty over the empty select. -/
def stB : SessionState :=
  ⟨[("s1", ps1), ("s2", psSet), ("s0", ps0)],
    [("pSet", ⟨"pSet", psSet, 7, []⟩), ("pRows", ⟨"pRows", ps1, 7, []⟩),
      ("pEmpty", ⟨"pEmpty", ps0, 7, []⟩)], false⟩

example : EncodeValue (.int 1) .integer 0 = .ok [0, 0, 0, 8, 0, 0, 0, 0, 0, 0, 0, 1] := by decide
example : EncodeValue (.bool true) .integer 0 = .error .invalidValue := by decide
example : EncodeValue (.bool true) .boolean 0 = .ok [0, 0, 0, 1, 1] := by decide
example : EncodeValue (.str [116, 105, 116, 108, 101]) .varchar 0 =
    .ok [0, 0, 0, 5, 116, 105, 116, 108, 101] := by decide
example : EncodeValue (.blob []) .blob 0 = .ok [0, 0, 0, 0] := by decide
example : EncodeValue (.int 1) .any 0 = .error .invalidValue := by decide
example : EncodeValue (.str (List.replicate 33 48)) .varchar 32 = .error .maxLengthExceeded := by decide
example : DecodeValue [] .integer = .error .corruptedData := by decide
example : DecodeValue [1, 2] .integer = .error .corruptedData := by decide
example : DecodeValue [0, 0, 0, 3, 1, 2] .varchar = .error .corruptedData := by decide
example : DecodeValue [128, 0, 0, 0, 0] .varchar = .error .corruptedData := by decide
example : DecodeValue [0, 0, 0, 9, 1, 2, 3, 4, 5, 6, 7, 8, 9] .integer = .error .corruptedData := by decide
example : DecodeValue [0, 0, 0, 0] .boolean = .error .corruptedData := by decide
example : DecodeValue [0, 0, 0, 2, 0, 0] .boolean = .error .corruptedData := by decide
example : DecodeValue [0, 0, 0, 1, 1] .any = .error .corruptedData := by decide
example : DecodeValue [0, 0, 0, 2, 72, 105] .varchar = .ok (.str [72, 105], 6) := by decide
example : DecodeValue [0, 0, 0, 2, 72, 105, 1, 2, 3] .varchar = .ok (.str [72, 105], 6) := by decide
example : DecodeValue [0, 0, 0, 8, 0, 0, 0, 0, 127, 255, 255, 255] .integer =
    .ok (.int 2147483647, 12) := by decide
example : DecodeValue [0, 0, 0, 1, 0, 1] .boolean = .ok (.bool false, 5) := by decide
example : DecodeValue [0, 0, 0, 0] .blob = .ok (.blob [], 4) := by decide

example : setMatch "SELECT id FROM t1" = false := by decide
example : setMatch "SELECT id FROM t1; SELECT id FROM t2" = false := by decide
example : setMatch "SELECT id FROM t1 WHERE v = 'set 1'; SELECT id FROM t2" = true := by decide
example : setMatch "UPSERT INTO t1 (id, v) VALUES (1, 'set x')" = true := by decide
example : setMatch "set a 1" = true := by decide
example : setMatch "SET " = false := by decide
example : versionMatch "select version()" = true := by decide
example : versionMatch "SELECT  VERSION( )" = true := by decide
example : versionMatch "select versio()" = false := by decide

example : runSession dbA initialSession
    [.parse "" "SELECT id FROM nope", .bind "" "" [] [], .execute "", .sync] =
    ([.errorResponse (.generic 0), .readyForQuery], .running initialSession) := by decide

example : runSession dbA initialSession
    [.parse "" "SELECT id FROM t1; SELECT id FROM t2", .parse "" "SELECT id FROM t1", .sync] =
    ([.errorResponse .maxStmtNumberExceeded, .parseComplete, .readyForQuery],
      .running ⟨[("", ⟨"", "SELECT id FROM t1", some (.selectS 1), [], [idCol]⟩)], [], false⟩) := by
  decide

/-! ## Codec lemmas -/

theorem toBytesBE_length (k n : Nat) : (toBytesBE k n).length = k := by
  induction k generalizing n with
  | zero => rfl
  | succ k ih => simp [toBytesBE, ih]

theorem toBytesBE_mod (k : Nat) : ∀ n, toBytesBE k (n % 256 ^ k) = toBytesBE k n := by
  induction k with
  | zero => intro n; rfl
  | succ k ih =>
    intro n
    show (n % 256 ^ (k + 1) / 256 ^ k) % 256 :: toBytesBE k (n % 256 ^ (k + 1)) =
        (n / 256 ^ k) % 256 :: toBytesBE k n
    have hhead : n % 256 ^ (k + 1) / 256 ^ k = n / 256 ^ k % 256 := by
      rw [pow_succ]
      exact Nat.mod_mul_right_div_self n (256 ^ k) 256
    have htail : toBytesBE k (n % 256 ^ (k + 1)) = toBytesBE k n := by
      calc toBytesBE k (n % 256 ^ (k + 1))
          = toBytesBE k (n % 256 ^ (k + 1) % 256 ^ k) := (ih _).symm
        _ = toBytesBE k (n % 256 ^ k) := by
            rw [Nat.mod_mod_of_dvd _ (pow_dvd_pow 256 (Nat.le_succ k))]
        _ = toBytesBE k n := ih n
    rw [hhead, htail, Nat.mod_mod_of_dvd _ dvd_rfl]

theorem fromBytesBE_toBytesBE (k : Nat) : ∀ n, fromBytesBE (toBytesBE k n) = n % 256 ^ k := by
  induction k with
  | zero => intro n; simp [toBytesBE, fromBytesBE, Nat.mod_one]
  | succ k ih =>
    intro n
    show (n / 256 ^ k) % 256 * 256 ^ (toBytesBE k n).length + fromBytesBE (toBytesBE k n) =
        n % 256 ^ (k + 1)
    rw [toBytesBE_length, ih, Nat.mod_pow_succ]
    ring

theorem lexLt_toBytesBE (k : Nat) :
    ∀ n m, n < 256 ^ k → m < 256 ^ k →
      (lexLt (toBytesBE k n) (toBytesBE k m) = true ↔ n < m) := by
  induction k with
  | zero =>
    intro n m hn hm
    simp [toBytesBE, lexLt]
    omega
  | succ k ih =>
    intro n m hn hm
    have hc : (0 : ℕ) < 256 ^ k := pow_pos (by norm_num) k
    have hpow : (256 : ℕ) ^ (k + 1) = 256 ^ k * 256 := pow_succ 256 k
    have hn8 : n / 256 ^ k < 256 := Nat.div_lt_of_lt_mul (hpow ▸ hn)
    have hm8 : m / 256 ^ k < 256 := Nat.div_lt_of_lt_mul (hpow ▸ hm)
    show lexLt ((n / 256 ^ k) % 256 :: toBytesBE k n) ((m / 256 ^ k) % 256 :: toBytesBE k m) =
        true ↔ n < m
    rw [Nat.mod_eq_of_lt hn8, Nat.mod_eq_of_lt hm8]
    rcases lt_trichotomy (n / 256 ^ k) (m / 256 ^ k) with h | h | h
    · constructor
      · intro _
        exact Nat.lt_of_div_lt_div h
      · intro _
        simp [lexLt, if_pos h]
    · have hx : ¬ n / 256 ^ k < m / 256 ^ k := by omega
      have hy : ¬ m / 256 ^ k < n / 256 ^ k := by omega
      simp only [lexLt, if_neg hx, if_neg hy]
      rw [← toBytesBE_mod k n, ← toBytesBE_mod k m,
        ih (n % 256 ^ k) (m % 256 ^ k) (Nat.mod_lt _ hc) (Nat.mod_lt _ hc)]
      have e1 := Nat.div_add_mod n (256 ^ k)
      have e2 := Nat.div_add_mod m (256 ^ k)
      rw [h] at e1
      omega
    · have hx : ¬ n / 256 ^ k < m / 256 ^ k := by omega
      have hmn : m < n := Nat.lt_of_div_lt_div h
      simp only [lexLt, if_neg hx, if_pos h, Bool.false_eq_true, false_iff]
      omega

/-! ## Shared lemmas for the claim theorems -/

theorem lexLt_append (p : List Nat) : ∀ x y, lexLt (p ++ x) (p ++ y) = lexLt x y := by
  induction p with
  | nil => intro x y; rfl
  | cons a p ih => intro x y; simp [lexLt, ih]

theorem emod_toNat_lt_pow (i : Int) : (i % 2 ^ 64).toNat < 256 ^ 8 := by
  have h1 : i % 2 ^ 64 < 2 ^ 64 := Int.emod_lt_of_pos i (by norm_num)
  have h2 : (0 : Int) ≤ i % 2 ^ 64 := Int.emod_nonneg i (by norm_num)
  have h3 : (256 : Nat) ^ 8 = 2 ^ 64 := by norm_num
  omega

theorem toSigned64_emod (i : Int) (h1 : -(2 ^ 63) ≤ i) (h2 : i < 2 ^ 63) :
    toSigned64 (i % 2 ^ 64).toNat = i := by
  unfold toSigned64
  norm_num at h1 h2 ⊢
  split <;> omega

/-! ## Claim theorems -/

/-- C1: the claimed Sync discipline — every error while processing a
Parse/Bind/Describe/Execute message emits ErrorResponse, sets
waitForSync and discards all frontend messages until Sync — is violated
by the code at the multi-statement Parse error: that path (the
ErrMaxStmtNumberExceeded branch) emits ErrorResponse but never sets
waitForSync, unlike every sibling error path and the discipline the
comment above the loop states, so the next Parse is processed and
answered with ParseComplete instead of being discarded.  This theorem
evaluates the machine at the failing input: a two-statement Parse, a
well-formed Parse, then Sync. -/
theorem sync_discipline_skips_multistmt_error_bug :
    runSession dbA initialSession
      [.parse "" "SELECT id FROM t1; SELECT id FROM t2",
        .parse "" "SELECT id FROM t1", .sync] =
      ([.errorResponse .maxStmtNumberExceeded, .parseComplete, .readyForQuery],
        .running ⟨[("", ⟨"", "SELECT id FROM t1", some (.selectS 1), [], [idCol]⟩)], [], false⟩) ∧
    queryMachineStep dbA initialSession
      (.parse "" "SELECT id FROM t1; SELECT id FROM t2") =
      .next initialSession [.errorResponse .maxStmtNumberExceeded] := by
  decide

/-- C5 counterexample: the integer key encoding is the raw (unbiased)
two complement, as TestEncodeRawValue pins, so the encoding of -1 sorts
above the encoding of 0 although -1 < 0: order preservation fails for
signed integers across zero. -/
theorem int_encoding_order_counterexample :
    (-1 : Int) < 0 ∧
    EncodeValue (.int (-1)) .integer 0 =
      .ok [0, 0, 0, 8, 255, 255, 255, 255, 255, 255, 255, 255] ∧
    EncodeValue (.int 0) .integer 0 = .ok [0, 0, 0, 8, 0, 0, 0, 0, 0, 0, 0, 0] ∧
    lexLt [0, 0, 0, 8, 255, 255, 255, 255, 255, 255, 255, 255]
      [0, 0, 0, 8, 0, 0, 0, 0, 0, 0, 0, 0] = false := by
  decide

/-- C5 amended: integers encode as the fixed 8-byte big-endian raw two
complement of the int64, behind the 4-byte length header, without a sign
bias; lexicographic order on the encodings therefore matches numeric
order on the unsigned reinterpretation a mod 2^64 — order-preserving
exactly for same-signed pairs, while every negative value sorts above
every non-negative one. -/
theorem int_encoding_order_amended (a b : Int) (ea eb : List Nat)
    (ha : EncodeValue (.int a) .integer 0 = .ok ea)
    (hb : EncodeValue (.int b) .integer 0 = .ok eb) :
    lexLt ea eb = true ↔ a % 2 ^ 64 < b % 2 ^ 64 := by
  simp only [EncodeValue, Except.ok.injEq] at ha hb
  subst ha hb
  rw [lexLt_append, lexLt_toBytesBE 8 _ _ (emod_toNat_lt_pow a) (emod_toNat_lt_pow b)]
  have hb1 : (0 : Int) ≤ a % 2 ^ 64 := Int.emod_nonneg a (by norm_num)
  have hb2 : (0 : Int) ≤ b % 2 ^ 64 := Int.emod_nonneg b (by norm_num)
  omega

/-- C5 witness: the amended order law evaluated at the concrete pair
(-1, 0). -/
theorem int_encoding_order_amended_witness :
    lexLt [0, 0, 0, 8, 255, 255, 255, 255, 255, 255, 255, 255]
        [0, 0, 0, 8, 0, 0, 0, 0, 0, 0, 0, 0] = true ↔
      (-1 : Int) % 2 ^ 64 < (0 : Int) % 2 ^ 64 :=
  int_encoding_order_amended (-1) 0 _ _ (by decide) (by decide)

theorem decodeValue_varchar_of_len (s : List Nat) (h : s.length < 2 ^ 31) :
    DecodeValue (toBytesBE 4 s.length ++ s) .varchar = .ok (.str s, 4 + s.length) := by
  have hp : (toBytesBE 4 s.length).length = 4 := toBytesBE_length 4 _
  have hlen : (toBytesBE 4 s.length ++ s).length = 4 + s.length := by
    rw [List.length_append, hp]
  have htake : (toBytesBE 4 s.length ++ s).take 4 = toBytesBE 4 s.length :=
    List.take_left' hp
  have hfrom : fromBytesBE (toBytesBE 4 s.length) = s.length := by
    rw [fromBytesBE_toBytesBE]
    exact Nat.mod_eq_of_lt (lt_of_lt_of_le h (by norm_num))
  have hdrop : (toBytesBE 4 s.length ++ s).drop 4 = s := List.drop_left' hp
  have c1 : ¬ (4 + s.length < 4) := by omega
  have c3 : ¬ (4 + s.length < 4 + s.length) := by omega
  simp [DecodeValue, hlen, htake, hfrom, hdrop, c1, c3]
  omega

theorem decodeValue_blob_of_len (s : List Nat) (h : s.length < 2 ^ 31) :
    DecodeValue (toBytesBE 4 s.length ++ s) .blob = .ok (.blob s, 4 + s.length) := by
  have hp : (toBytesBE 4 s.length).length = 4 := toBytesBE_length 4 _
  have hlen : (toBytesBE 4 s.length ++ s).length = 4 + s.length := by
    rw [List.length_append, hp]
  have htake : (toBytesBE 4 s.length ++ s).take 4 = toBytesBE 4 s.length :=
    List.take_left' hp
  have hfrom : fromBytesBE (toBytesBE 4 s.length) = s.length := by
    rw [fromBytesBE_toBytesBE]
    exact Nat.mod_eq_of_lt (lt_of_lt_of_le h (by norm_num))
  have hdrop : (toBytesBE 4 s.length ++ s).drop 4 = s := List.drop_left' hp
  have c1 : ¬ (4 + s.length < 4) := by omega
  have c3 : ¬ (4 + s.length < 4 + s.length) := by omega
  simp [DecodeValue, hlen, htake, hfrom, hdrop, c1, c3]
  omega

theorem decodeValue_int_of_range (i : Int) (h1 : -(2 ^ 63) ≤ i) (h2 : i < 2 ^ 63) :
    DecodeValue (toBytesBE 4 8 ++ toBytesBE 8 ((i % 2 ^ 64).toNat)) .integer =
      .ok (.int i, 12) := by
  have hn : (i % 2 ^ 64).toNat < 256 ^ 8 := emod_toNat_lt_pow i
  have hp : (toBytesBE 4 8).length = 4 := toBytesBE_length 4 8
  have hq : (toBytesBE 8 ((i % 2 ^ 64).toNat)).length = 8 := toBytesBE_length 8 _
  have hlen : (toBytesBE 4 8 ++ toBytesBE 8 ((i % 2 ^ 64).toNat)).length = 12 := by
    rw [List.length_append, hp, hq]
  have htake : (toBytesBE 4 8 ++ toBytesBE 8 ((i % 2 ^ 64).toNat)).take 4 = toBytesBE 4 8 :=
    List.take_left' hp
  have hfrom4 : fromBytesBE (toBytesBE 4 8) = 8 := by decide
  have hdrop : (toBytesBE 4 8 ++ toBytesBE 8 ((i % 2 ^ 64).toNat)).drop 4 =
      toBytesBE 8 ((i % 2 ^ 64).toNat) := List.drop_left' hp
  have htq : (toBytesBE 8 ((i % 2 ^ 64).toNat)).take 8 = toBytesBE 8 ((i % 2 ^ 64).toNat) :=
    List.take_of_length_le (by rw [hq])
  have hrec : fromBytesBE (toBytesBE 8 ((i % 2 ^ 64).toNat)) = (i % 2 ^ 64).toNat := by
    rw [fromBytesBE_toBytesBE]
    exact Nat.mod_eq_of_lt hn
  have hsig : toSigned64 ((i % 2 ^ 64).toNat) = i := toSigned64_emod i h1 h2
  simp only [DecodeValue, hlen, htake, hfrom4, hdrop, htq, hrec, hsig]
  norm_num

/-- C6: key-codec round trip — decoding the successful encoding of any
legal (type, value) pair over INTEGER, VARCHAR, BOOLEAN and BLOB yields
the original value back, and the decoder consumes exactly the 4-byte
big-endian length prefix plus the payload. -/
theorem codec_round_trip (v : RawValue) (t : SQLValueType) (maxLen : Nat) (bs : List Nat)
    (hwf : v.wellFormed) (henc : EncodeValue v t maxLen = .ok bs) :
    DecodeValue bs t = .ok (v, bs.length) := by
  cases t with
  | integer =>
    cases v with
    | int i =>
      obtain ⟨h1, h2⟩ := hwf
      simp only [EncodeValue, Except.ok.injEq] at henc
      subst henc
      have hlen : (toBytesBE 4 8 ++ toBytesBE 8 ((i % 2 ^ 64).toNat)).length = 12 := by
        rw [List.length_append, toBytesBE_length, toBytesBE_length]
      rw [hlen]
      exact decodeValue_int_of_range i h1 h2
    | str s => exact absurd henc (by simp [EncodeValue])
    | bool b => exact absurd henc (by simp [EncodeValue])
    | blob s => exact absurd henc (by simp [EncodeValue])
  | varchar =>
    cases v with
    | str s =>
      simp only [EncodeValue] at henc
      split at henc
      · exact absurd henc (by simp)
      · simp only [Except.ok.injEq] at henc
        subst henc
        have hlen : (toBytesBE 4 s.length ++ s).length = 4 + s.length := by
          rw [List.length_append, toBytesBE_length]
        rw [hlen]
        exact decodeValue_varchar_of_len s hwf
    | int i => exact absurd henc (by simp [EncodeValue])
    | bool b => exact absurd henc (by simp [EncodeValue])
    | blob s => exact absurd henc (by simp [EncodeValue])
  | boolean =>
    cases v with
    | bool b =>
      simp only [EncodeValue, Except.ok.injEq] at henc
      subst henc
      cases b <;> decide
    | int i => exact absurd henc (by simp [EncodeValue])
    | str s => exact absurd henc (by simp [EncodeValue])
    | blob s => exact absurd henc (by simp [EncodeValue])
  | blob =>
    cases v with
    | blob s =>
      simp only [EncodeValue] at henc
      split at henc
      · exact absurd henc (by simp)
      · simp only [Except.ok.injEq] at henc
        subst henc
        have hlen : (toBytesBE 4 s.length ++ s).length = 4 + s.length := by
          rw [List.length_append, toBytesBE_length]
        rw [hlen]
        exact decodeValue_blob_of_len s hwf
    | int i => exact absurd henc (by simp [EncodeValue])
    | str s => exact absurd henc (by simp [EncodeValue])
    | bool b => exact absurd henc (by simp [EncodeValue])
  | any =>
    cases v <;> exact absurd henc (by simp [EncodeValue])

/-- C6 witness: the round trip evaluated at the concrete varchar Hi. -/
theorem codec_round_trip_witness :
    EncodeValue (.str [72, 105]) .varchar 10 = .ok [0, 0, 0, 2, 72, 105] ∧
    DecodeValue [0, 0, 0, 2, 72, 105] .varchar = .ok (.str [72, 105], 6) := by
  refine ⟨by decide, ?_⟩
  have h := codec_round_trip (.str [72, 105]) .varchar 10 [0, 0, 0, 2, 72, 105]
    (by norm_num [RawValue.wellFormed]) (by decide)
  simpa using h

/-- C2 counterexample: a Bind naming an already-present non-empty portal
answers ErrorResponse and enters the discard-until-Sync state — the
session stays open and still answers the following Sync — while a Parse
collision on a non-empty statement name closes the connection.  The two
collisions are therefore not treated the same way, contrary to the
claim. -/
theorem bind_collision_not_fatal_counterexample :
    runSession dbA initialSession
      [.parse "s1" "SELECT id FROM t1", .bind "p1" "s1" [] [],
        .bind "p1" "s1" [] [], .sync] =
      ([.parseComplete, .bindComplete, .errorResponse .portalAlreadyPresent, .readyForQuery],
        .running ⟨[("s1", ps1)], [("p1", ⟨"p1", ps1, 7, []⟩)], false⟩) ∧
    runSession dbA initialSession
      [.parse "s1" "SELECT id FROM t1", .parse "s1" "SELECT id FROM t1"] =
      ([.parseComplete], .closed (some .statementAlreadyPresent)) := by
  decide

/-- C2 amended: at most one prepared statement and one portal per name,
with asymmetric collision handling.  A Parse naming an existing
non-empty statement is fatal: QueryMachine returns the error and the
connection closes without any reply.  A Parse with the empty name never
collides: it stores the new unnamed statement over the old one and
answers ParseComplete.  A Bind naming an existing non-empty portal is
not fatal: it answers ErrorResponse and enters the discard-until-Sync
state, leaving the connection open. -/
theorem name_collision_rules_amended (db : DBOracle) (st : SessionState) :
    (∀ name text q cols, name ≠ "" → (st.statements.lookup name).isSome = true →
      setMatch text = false → db.parseSQL text = .ok [.selectS q] →
      db.selectColumns q = .ok cols → db.inferParams (.selectS q) = .ok [] →
      queryMachineSwitch db st (.parse name text) =
        .closed [] (some .statementAlreadyPresent)) ∧
    (∀ text q cols, setMatch text = false → db.parseSQL text = .ok [.selectS q] →
      db.selectColumns q = .ok cols → db.inferParams (.selectS q) = .ok [] →
      queryMachineSwitch db st (.parse "" text) =
        .next { st with statements := mapSet st.statements "" ⟨"", text, some (.selectS q), [], cols⟩ } [.parseComplete]) ∧
    (∀ pname sname vals fmts, pname ≠ "" → (st.portals.lookup pname).isSome = true →
      queryMachineSwitch db st (.bind pname sname vals fmts) =
        .next { st with waitForSync := true } [.errorResponse .portalAlreadyPresent]) := by
  refine ⟨?_, ?_, ?_⟩
  · intro name text q cols hname hsome hset hparse hcols hinfer
    obtain ⟨v, hv⟩ := Option.isSome_iff_exists.mp hsome
    simp [queryMachineSwitch, hset, hparse, hcols, hinfer, parseFinish, hv, hname,
      sortStrings]
  · intro text q cols hset hparse hcols hinfer
    simp only [queryMachineSwitch, hset, Bool.false_eq_true, if_false, hparse, hcols, hinfer]
    cases hv : st.statements.lookup "" with
    | none => simp [parseFinish, hv, sortStrings]
    | some v => simp [parseFinish, hv, sortStrings]
  · intro pname sname vals fmts hname hsome
    obtain ⟨p, hp⟩ := Option.isSome_iff_exists.mp hsome
    simp [queryMachineSwitch, hp, hname]

/-- C2 witness: the amended collision rules evaluated on the concrete
session holding statement s1 and portal p1. -/
theorem name_collision_rules_amended_witness :
    queryMachineSwitch dbA stA (.parse "s1" "SELECT id FROM t1") =
      .closed [] (some .statementAlreadyPresent) ∧
    queryMachineSwitch dbA stA (.parse "" "SELECT id FROM t1") =
      .next { stA with statements := mapSet stA.statements "" ⟨"", "SELECT id FROM t1", some (.selectS 1), [], [idCol]⟩ } [.parseComplete] ∧
    queryMachineSwitch dbA stA (.bind "p1" "s1" [] []) =
      .next { stA with waitForSync := true } [.errorResponse .portalAlreadyPresent] := by
  have h := name_collision_rules_amended dbA stA
  exact ⟨h.1 "s1" "SELECT id FROM t1" 1 [idCol] (by decide) (by decide) (by decide)
      (by decide) (by decide) (by decide),
    h.2.1 "SELECT id FROM t1" 1 [idCol] (by decide) (by decide) (by decide) (by decide),
    h.2.2 "p1" "s1" [] [] (by decide) (by decide)⟩

/-- C3 counterexample: Execute on an existing portal whose select
returns no rows emits EmptyQueryResponse AND CommandComplete — the
CommandComplete write at the end of the Execute branch runs
unconditionally — whereas the claim promises EmptyQueryResponse INSTEAD
of CommandComplete. -/
theorem execute_empty_result_counterexample :
    runSession dbA initialSession
      [.parse "" "SELECT id FROM t0", .bind "" "" [] [], .execute ""] =
      ([.parseComplete, .bindComplete, .emptyQueryResponse, .commandComplete],
        .running ⟨[("", ⟨"", "SELECT id FROM t0", some (.selectS 2), [], [idCol]⟩)],
          [("", ⟨"", ⟨"", "SELECT id FROM t0", some (.selectS 2), [], [idCol]⟩, 7, []⟩)],
          false⟩) := by
  decide

/-- C3 amended: Execute on an existing portal re-parses the stored SQL
text.  A text matching the SET pattern answers only EmptyQueryResponse.
Otherwise the select runs with the portal's bound parameters: a
non-empty result emits one DataRow batch then CommandComplete, and an
empty result emits EmptyQueryResponse then CommandComplete as well —
EmptyQueryResponse replaces only the DataRow batch, never the final
CommandComplete. -/
theorem execute_portal_behaviour_amended (db : DBOracle) (st : SessionState)
    (pname : String) (p : Portal) (hw : st.waitForSync = false)
    (hp : st.portals.lookup pname = some p) :
    (setMatch p.statement.sqlStatement = true →
      queryMachineStep db st (.execute pname) = .next st [.emptyQueryResponse]) ∧
    (∀ q res, setMatch p.statement.sqlStatement = false →
      db.parseSQL p.statement.sqlStatement = .ok [.selectS q] →
      db.queryPrepared q (some p.parameters) = .ok res →
      (res.rows ≠ [] →
        queryMachineStep db st (.execute pname) =
          .next st [.dataRow res.rows res.columns.length (some p.resultColumnFormatCodes),
            .commandComplete]) ∧
      (res.rows = [] →
        queryMachineStep db st (.execute pname) =
          .next st [.emptyQueryResponse, .commandComplete])) := by
  have hst : { st with waitForSync := false } = st := by rw [← hw]
  constructor
  · intro hset
    simp [queryMachineStep, hw, queryMachineSwitch, hp, hset]
  · intro q res hset hparse hquery
    constructor
    · intro hrows
      have hlen : 0 < res.rows.length := List.length_pos.mpr hrows
      simp [queryMachineStep, hw, queryMachineSwitch, hp, hset, hparse, executeLoop,
        hquery, hlen, hst]
    · intro hrows
      simp [queryMachineStep, hw, queryMachineSwitch, hp, hset, hparse, executeLoop,
        hquery, hrows, hst]

/-- C3 witness: the amended Execute behaviour evaluated on the concrete
session stB at its three portals (SET text, one-row select, empty
select). -/
theorem execute_portal_behaviour_amended_witness :
    queryMachineStep dbA stB (.execute "pSet") = .next stB [.emptyQueryResponse] ∧
    queryMachineStep dbA stB (.execute "pRows") =
      .next stB [.dataRow [11] 1 (some []), .commandComplete] ∧
    queryMachineStep dbA stB (.execute "pEmpty") =
      .next stB [.emptyQueryResponse, .commandComplete] := by
  refine ⟨?_, ?_, ?_⟩
  · exact (execute_portal_behaviour_amended dbA stB "pSet" ⟨"pSet", psSet, 7, []⟩
      (by decide) (by decide)).1 (by decide)
  · have h := (execute_portal_behaviour_amended dbA stB "pRows" ⟨"pRows", ps1, 7, []⟩
      (by decide) (by decide)).2 1 ⟨[idCol], [11]⟩ (by decide) (by decide) (by decide)
    simpa using h.1 (by decide)
  · have h := (execute_portal_behaviour_amended dbA stB "pEmpty" ⟨"pEmpty", ps0, 7, []⟩
      (by decide) (by decide)).2 2 ⟨[idCol], []⟩ (by decide) (by decide) (by decide)
    simpa using h.2 (by decide)

/-- C4 counterexample: a Parse text matching the unanchored SET pattern
bypasses parsing entirely and is accepted with ParseComplete, even when
the text contains two SQL statements (a string literal containing
set 1 triggers the pattern) and even when its single statement is not a
SELECT (an UPSERT whose value contains set x). -/
theorem parse_set_bypass_counterexample :
    dbA.parseSQL "SELECT id FROM t1 WHERE v = 'set 1'; SELECT id FROM t2" =
      .ok [.selectS 1, .selectS 2] ∧
    runSession dbA initialSession
      [.parse "" "SELECT id FROM t1 WHERE v = 'set 1'; SELECT id FROM t2"] =
      ([.parseComplete],
        .running ⟨[("", ⟨"", "SELECT id FROM t1 WHERE v = 'set 1'; SELECT id FROM t2",
          none, [], []⟩)], [], false⟩) ∧
    dbA.parseSQL "UPSERT INTO t1 (id, v) VALUES (1, 'set x')" = .ok [.otherS 4] ∧
    runSession dbA initialSession
      [.parse "" "UPSERT INTO t1 (id, v) VALUES (1, 'set x')"] =
      ([.parseComplete],
        .running ⟨[("", ⟨"", "UPSERT INTO t1 (id, v) VALUES (1, 'set x')",
          none, [], []⟩)], [], false⟩) := by
  decide

/-- C4 amended: only Parse texts that do NOT match the SET pattern are
checked.  Among those, a text parsing to more than one statement is
rejected with ErrorResponse (MaxStmtNumberExceeded, without entering the
discard state) and a single non-SELECT statement is rejected with
ErrorResponse (entering the discard state).  A text matching the
unanchored SET pattern skips parsing and both checks and is stored and
acknowledged with ParseComplete. -/
theorem parse_reject_rules_amended (db : DBOracle) (st : SessionState) (name : String)
    (hw : st.waitForSync = false) :
    (∀ text stmts, setMatch text = false → db.parseSQL text = .ok stmts →
      1 < stmts.length →
      queryMachineStep db st (.parse name text) =
        .next st [.errorResponse .maxStmtNumberExceeded]) ∧
    (∀ text s, setMatch text = false → db.parseSQL text = .ok [s] → s.isSelect = false →
      queryMachineStep db st (.parse name text) =
        .next { st with waitForSync := true } [.errorResponse .notASelect]) ∧
    (∀ text, setMatch text = true → st.statements.lookup name = none →
      queryMachineStep db st (.parse name text) =
        .next { st with statements := mapSet st.statements name ⟨name, text, none, [], []⟩ } [.parseComplete]) := by
  refine ⟨?_, ?_, ?_⟩
  · intro text stmts hset hparse hlen
    have hlen' : stmts.length > 1 := hlen
    simp [queryMachineStep, hw, queryMachineSwitch, hset, hparse, hlen']
  · intro text s hset hparse hsel
    cases s with
    | selectS q => simp [Stmt.isSelect] at hsel
    | useDatabaseS q => simp [queryMachineStep, hw, queryMachineSwitch, hset, hparse]
    | createDatabaseS q => simp [queryMachineStep, hw, queryMachineSwitch, hset, hparse]
    | otherS q => simp [queryMachineStep, hw, queryMachineSwitch, hset, hparse]
  · intro text hset hnone
    simp [queryMachineStep, hw, queryMachineSwitch, hset, parseFinish, hnone]

/-- C4 witness: the amended Parse rules evaluated at a two-statement
text, a single CREATE TABLE, and a SET-matching UPSERT text. -/
theorem parse_reject_rules_amended_witness :
    queryMachineStep dbA initialSession
      (.parse "" "SELECT id FROM t1; SELECT id FROM t2") =
      .next initialSession [.errorResponse .maxStmtNumberExceeded] ∧
    queryMachineStep dbA initialSession
      (.parse "" "CREATE TABLE t1 (id INTEGER, PRIMARY KEY id)") =
      .next { initialSession with waitForSync := true } [.errorResponse .notASelect] ∧
    queryMachineStep dbA initialSession
      (.parse "" "UPSERT INTO t1 (id, v) VALUES (1, 'set x')") =
      .next { initialSession with statements := mapSet initialSession.statements "" ⟨"", "UPSERT INTO t1 (id, v) VALUES (1, 'set x')", none, [], []⟩ } [.parseComplete] := by
  have h := parse_reject_rules_amended dbA initialSession "" (by decide)
  exact ⟨h.1 "SELECT id FROM t1; SELECT id FROM t2" [.selectS 1, .selectS 2]
      (by decide) (by decide) (by decide),
    h.2.1 "CREATE TABLE t1 (id INTEGER, PRIMARY KEY id)" (.otherS 3)
      (by decide) (by decide) (by decide),
    h.2.2 "UPSERT INTO t1 (id, v) VALUES (1, 'set x')" (by decide) (by decide)⟩

/-- C7 counterexample: when the first row is already committed by an
earlier statement, writing a second row with the same unique-index key
and a different primary key fails with KeyAlreadyExists, not
DuplicatedKey — exactly as TestUpsertInto pins with
store.ErrKeyAlreadyExists on UPSERT (2, 10, true) after (1, 10, true). -/
theorem unique_conflict_error_counterexample :
    execWriteStmt emptyKV [⟨[1], [9], [100]⟩] = .ok ⟨[([1], [100])], [([9], [1])]⟩ ∧
    execWriteStmt ⟨[([1], [100])], [([9], [1])]⟩ [⟨[2], [9], [200]⟩] =
      .error .keyAlreadyExists ∧
    Err.keyAlreadyExists ≠ Err.duplicatedKey := by
  decide

/-- C7 amended: a second row whose unique-index key equals that of an
existing row with a different primary key fails, and the failed
statement changes no state — but the error kind depends on where the
first row came from: KeyAlreadyExists when it is already committed (the
executor's read-and-compare check against the current index entry), and
DuplicatedKey when both rows belong to one statement (the store rejects
a transaction writing one key twice); in both cases the first row is
intact. -/
theorem unique_conflict_amended (st : KVState) (r1 r2 : WriteRow) (st1 : KVState)
    (h1 : execWriteStmt st [r1] = .ok st1)
    (hk : r2.uniqueKey = r1.uniqueKey) (hpk : r2.pk ≠ r1.pk) :
    execWriteStmt st1 [r2] = .error .keyAlreadyExists ∧
    (st.uniqueIdx.lookup r1.uniqueKey = none →
      execWriteStmt st [r1, r2] = .error .duplicatedKey) ∧
    st1.primary.lookup r1.pk = some r1.payload := by
  have hpk' : r1.pk ≠ r2.pk := Ne.symm hpk
  have hchk : checkUnique st r1 = .ok () := by
    cases hc : checkUnique st r1 with
    | ok u => cases u; rfl
    | error e =>
      exfalso
      simp [execWriteStmt, checkAllUnique, hc] at h1
  have hst1 : st1 = commitRows st [r1] := by
    simp [execWriteStmt, checkAllUnique, hchk, txKeys, hasDup, beq_iff_eq,
      Prod.mk.injEq] at h1
    first
    | exact h1
    | exact h1.symm
  subst hst1
  refine ⟨?_, ?_, ?_⟩
  · simp [execWriteStmt, checkAllUnique, checkUnique, commitRows, mapSet, List.lookup,
      hk, hpk']
  · intro hn
    simp [execWriteStmt, checkAllUnique, checkUnique, hchk, hk, hn, txKeys, hasDup, hpk',
      beq_iff_eq, Prod.mk.injEq]
  · simp [commitRows, mapSet, List.lookup]

/-- C7 witness: the amended uniqueness law evaluated at two concrete
conflicting rows. -/
theorem unique_conflict_amended_witness :
    execWriteStmt ⟨[([1], [100])], [([9], [1])]⟩ [⟨[2], [9], [200]⟩] =
      .error .keyAlreadyExists ∧
    execWriteStmt emptyKV [⟨[1], [9], [100]⟩, ⟨[2], [9], [200]⟩] =
      .error .duplicatedKey ∧
    (⟨[([1], [100])], [([9], [1])]⟩ : KVState).primary.lookup [1] = some [100] := by
  have h := unique_conflict_amended emptyKV ⟨[1], [9], [100]⟩ ⟨[2], [9], [200]⟩
    ⟨[([1], [100])], [([9], [1])]⟩ (by decide) (by decide) (by decide)
  exact ⟨h.1, h.2.1 (by decide), h.2.2⟩

/-- C8 counterexample: the distinct reader checks the limit before
reading its source, so with distinctLimit 4 and exactly 4 distinct
values the read after the fourth row still fails with TooManyRows —
TestQueryDistinct pins this with a 4-row table — although the set never
would grow past the limit and the claimed mechanism would end the
stream with NoMoreRows. -/
theorem distinct_limit_counterexample :
    distinctRun 4 [[.int 1], [.int 2], [.int 3], [.int 4]] [] =
      ([[.int 1], [.int 2], [.int 3], [.int 4]], .tooManyRows) ∧
    (newDistinct [[.int 1], [.int 2], [.int 3], [.int 4]] []).length ≤ 4 := by
  decide

/-- C8 amended: draining the distinct reader with a buffered set below
the limit emits the fresh distinct key tuples in stream order; the
stream ends with NoMoreRows when fewer tuples than the remaining budget
exist, and with TooManyRows as soon as the set has reached the limit —
including when the source holds exactly the remaining budget and no
tuple would overflow it.  With limit 4 over 5 distinct values this
yields 4 rows and then TooManyRows. -/
theorem distinct_limit_amended (limit : Nat) (src : List (List RawValue)) :
    ∀ seen, seen.length ≤ limit →
      distinctRun limit src seen =
        if seen.length + (newDistinct src seen).length < limit then
          (newDistinct src seen, .noMoreRows)
        else ((newDistinct src seen).take (limit - seen.length), .tooManyRows) := by
  induction src with
  | nil =>
    intro seen hle
    rcases Nat.lt_or_ge seen.length limit with h | h
    · simp [distinctRun, newDistinct, Nat.ne_of_lt h, h]
    · have heq : seen.length = limit := Nat.le_antisymm hle h
      simp [distinctRun, newDistinct, heq]
  | cons r rest ih =>
    intro seen hle
    by_cases heq : seen.length = limit
    · rw [if_neg (by omega)]
      simp [distinctRun, heq]
    · have hlt : seen.length < limit := Nat.lt_of_le_of_ne hle heq
      by_cases hmem : r ∈ seen
      · have := ih seen hle
        simp only [distinctRun, heq, if_false, hmem, if_true, newDistinct, ite_true]
        simpa using this
      · have hrec := ih (r :: seen) (by simpa using hlt)
        simp only [distinctRun, heq, if_false, hmem, if_true, newDistinct, ite_false]
        rw [hrec]
        simp only [List.length_cons]
        rcases Nat.lt_or_ge (seen.length + 1 + (newDistinct rest (r :: seen)).length)
          limit with hA | hA
        · rw [if_pos (by omega), if_pos (by omega)]
        · rw [if_neg (by omega), if_neg (by omega)]
          rw [show limit - seen.length = (limit - (seen.length + 1)) + 1 from by omega]
          simp

/-- C8 witness: the amended distinct law at limit 4 over 5 distinct
values — four rows stream out and the next read fails with TooManyRows. -/
theorem distinct_limit_amended_witness :
    distinctRun 4 [[.int 1], [.int 2], [.int 3], [.int 4], [.int 5]] [] =
      ([[.int 1], [.int 2], [.int 3], [.int 4]], .tooManyRows) := by
  have h := distinct_limit_amended 4
    [[.int 1], [.int 2], [.int 3], [.int 4], [.int 5]] [] (by decide)
  rw [h]
  decide

/-- C9: GROUP BY is accepted only over a single column that is also the
input's natural order: with no ORDER BY the natural order is the primary
key, so GROUP BY over another column fails with LimitedGroupBy, while
GROUP BY v ORDER BY v succeeds when an index on v exists and streams one
COUNT() row per contiguous run of equal values — the emitted runs
flatten back to the scanned input and adjacent runs carry distinct
values. -/
theorem group_by_matching_order :
    (∀ (pk : String) (idx : List String) (g : String) (rows : List RawValue),
      g ≠ pk → runGroupByCount pk idx g none rows = .error .limitedGroupBy) ∧
    (∀ (pk : String) (idx : List String) (g : String) (rows : List RawValue),
      idx.contains g = true →
        runGroupByCount pk idx g (some g) rows = .ok (groupRuns rows)) ∧
    (∀ rows : List RawValue,
      (groupRuns rows).foldr (fun p acc => List.replicate p.2 p.1 ++ acc) [] = rows) ∧
    (∀ rows : List RawValue,
      List.Chain' (fun p q : RawValue × Nat => p.1 ≠ q.1) (groupRuns rows)) := by
  refine ⟨?_, ?_, ?_, ?_⟩
  · intro pk idx g rows hg
    simp [runGroupByCount, planAggNaturalOrder, hg]
  · intro pk idx g rows hidx
    have hmem : g ∈ idx := by simpa using hidx
    simp [runGroupByCount, planAggNaturalOrder, hmem]
  · intro rows
    induction rows with
    | nil => rfl
    | cons x xs ih =>
      cases hgr : groupRuns xs with
      | nil =>
        have hxs : xs = [] := by
          rw [hgr] at ih
          simpa using ih.symm
        subst hxs
        simp [groupRuns]
      | cons p rest =>
        obtain ⟨y, n⟩ := p
        rw [hgr] at ih
        simp only [List.foldr_cons] at ih
        by_cases hxy : x = y
        · subst hxy
          rw [show groupRuns (x :: xs) = (x, n + 1) :: rest from by simp [groupRuns, hgr]]
          simp only [List.foldr_cons, List.replicate_succ, List.cons_append]
          rw [ih]
        · rw [show groupRuns (x :: xs) = (x, 1) :: (y, n) :: rest from by
            simp [groupRuns, hgr, hxy]]
          simp only [List.foldr_cons, List.replicate_succ, List.replicate_zero,
            List.cons_append, List.nil_append]
          rw [ih]
  · intro rows
    induction rows with
    | nil => simp [groupRuns]
    | cons x xs ih =>
      cases hgr : groupRuns xs with
      | nil => simp [groupRuns, hgr]
      | cons p rest =>
        obtain ⟨y, n⟩ := p
        rw [hgr] at ih
        by_cases hxy : x = y
        · subst hxy
          rw [show groupRuns (x :: xs) = (x, n + 1) :: rest from by simp [groupRuns, hgr]]
          cases rest with
          | nil => simp
          | cons q rs =>
            rw [List.chain'_cons] at ih ⊢
            exact ⟨ih.1, ih.2⟩
        · rw [show groupRuns (x :: xs) = (x, 1) :: (y, n) :: rest from by
            simp [groupRuns, hgr, hxy]]
          rw [List.chain'_cons]
          exact ⟨hxy, ih⟩

/-- C9 witness: the GROUP BY law evaluated at a table with an index on v
and scan order v: GROUP BY v alone fails LimitedGroupBy, GROUP BY v
ORDER BY v counts each contiguous run. -/
theorem group_by_matching_order_witness :
    runGroupByCount "id" ["v"] "v" none [.int 0] = .error .limitedGroupBy ∧
    runGroupByCount "id" ["v"] "v" (some "v") [.int 0, .int 0, .int 1] =
      .ok [(.int 0, 2), (.int 1, 1)] := by
  constructor
  · exact group_by_matching_order.1 "id" ["v"] "v" [.int 0] (by decide)
  · rw [group_by_matching_order.2.1 "id" ["v"] "v" [.int 0, .int 0, .int 1] (by decide)]
    decide

/-- C10: closed-engine discipline — once Engine.Close succeeds, a second
Close and every subsequent engine operation (ExistDatabase, UseDatabase,
GetDatabaseByName, GetTableByName, DatabaseInUse, UseSnapshot,
RenewSnapshot, CloseSnapshot, InferParameters,
InferParametersPreparedStmt, EnsureCatalogReady, ReloadCatalog) return
AlreadyClosed instead of performing any work, as TestClosing pins. -/
theorem closed_engine_discipline (e e' : Engine) (h : Engine.Close e = .ok e') :
    Engine.Close e' = .error .alreadyClosed ∧
    (∀ db, Engine.ExistDatabase e' db = .error .alreadyClosed) ∧
    (∀ db, Engine.UseDatabase e' db = .error .alreadyClosed) ∧
    (∀ db, Engine.GetDatabaseByName e' db = .error .alreadyClosed) ∧
    (∀ db t, Engine.GetTableByName e' db t = .error .alreadyClosed) ∧
    Engine.DatabaseInUse e' = .error .alreadyClosed ∧
    (∀ a b, Engine.UseSnapshot e' a b = .error .alreadyClosed) ∧
    Engine.RenewSnapshot e' = .error .alreadyClosed ∧
    Engine.CloseSnapshot e' = .error .alreadyClosed ∧
    (∀ s, Engine.InferParameters e' s = .error .alreadyClosed) ∧
    (∀ s, Engine.InferParametersPreparedStmt e' s = .error .alreadyClosed) ∧
    Engine.EnsureCatalogReady e' = .error .alreadyClosed ∧
    Engine.ReloadCatalog e' = .error .alreadyClosed := by
  have hcl : e'.closed = true := by
    by_cases hc : e.closed
    · simp [Engine.Close, hc] at h
    · simp [Engine.Close, hc] at h
      rw [← h]
  refine ⟨?_, ?_, ?_, ?_, ?_, ?_, ?_, ?_, ?_, ?_, ?_, ?_, ?_⟩
  · simp [Engine.Close, hcl]
  · intro db; simp [Engine.ExistDatabase, hcl]
  · intro db; simp [Engine.UseDatabase, hcl]
  · intro db; simp [Engine.GetDatabaseByName, hcl]
  · intro db t; simp [Engine.GetTableByName, hcl]
  · simp [Engine.DatabaseInUse, hcl]
  · intro a b; simp [Engine.UseSnapshot, hcl]
  · simp [Engine.RenewSnapshot, hcl]
  · simp [Engine.CloseSnapshot, hcl]
  · intro s; simp [Engine.InferParameters, hcl]
  · intro s; simp [Engine.InferParametersPreparedStmt, hcl]
  · simp [Engine.EnsureCatalogReady, hcl]
  · simp [Engine.ReloadCatalog, hcl]

/-- C10 witness: the discipline evaluated on a concrete engine that
Close turns into a closed handle. -/
theorem closed_engine_discipline_witness :
    Engine.Close ⟨true, false, [], [], none, none⟩ = .error .alreadyClosed ∧
    Engine.ExistDatabase ⟨true, false, [], [], none, none⟩ "db1" = .error .alreadyClosed ∧
    Engine.UseDatabase ⟨true, false, [], [], none, none⟩ "db1" = .error .alreadyClosed ∧
    Engine.GetDatabaseByName ⟨true, false, [], [], none, none⟩ "db1" =
      .error .alreadyClosed ∧
    Engine.GetTableByName ⟨true, false, [], [], none, none⟩ "db1" "table1" =
      .error .alreadyClosed ∧
    Engine.DatabaseInUse ⟨true, false, [], [], none, none⟩ = .error .alreadyClosed ∧
    Engine.UseSnapshot ⟨true, false, [], [], none, none⟩ 0 0 = .error .alreadyClosed ∧
    Engine.RenewSnapshot ⟨true, false, [], [], none, none⟩ = .error .alreadyClosed ∧
    Engine.CloseSnapshot ⟨true, false, [], [], none, none⟩ = .error .alreadyClosed ∧
    Engine.InferParameters ⟨true, false, [], [], none, none⟩ "CREATE DATABASE db1" =
      .error .alreadyClosed ∧
    Engine.InferParametersPreparedStmt ⟨true, false, [], [], none, none⟩ (.otherS 0) =
      .error .alreadyClosed ∧
    Engine.EnsureCatalogReady ⟨true, false, [], [], none, none⟩ = .error .alreadyClosed ∧
    Engine.ReloadCatalog ⟨true, false, [], [], none, none⟩ = .error .alreadyClosed := by
  have h := closed_engine_discipline ⟨false, false, [], [], none, none⟩
    ⟨true, false, [], [], none, none⟩ (by decide)
  exact ⟨h.1, h.2.1 "db1", h.2.2.1 "db1", h.2.2.2.1 "db1", h.2.2.2.2.1 "db1" "table1",
    h.2.2.2.2.2.1, h.2.2.2.2.2.2.1 0 0, h.2.2.2.2.2.2.2.1, h.2.2.2.2.2.2.2.2.1,
    h.2.2.2.2.2.2.2.2.2.1 "CREATE DATABASE db1", h.2.2.2.2.2.2.2.2.2.2.1 (.otherS 0),
    h.2.2.2.2.2.2.2.2.2.2.2.1, h.2.2.2.2.2.2.2.2.2.2.2.2⟩
